import Mathlib

/-!
# Verification model of the `json-parser` crate

A shallow embedding of `src/tokenize.rs`, `src/parse.rs` and `src/lib.rs`.

Modelling conventions:

* Rust `String` / `Vec<char>` become `List Char`; the lexer and parser walk
  them with explicit `Nat` indices exactly as the source does.
* Rust `f64` becomes `ℚ`.  Every numeric literal the lexer accepts is a
  finite decimal, so its mathematical value is rational; `f64` rounding is
  not modelled (no claim proved here depends on rounding).
* Fallible Rust code returning `Result` becomes the `Outcome` sum below.
  Rust's `Vec` indexing aborts the process when the index is out of range;
  that outcome is modelled by `Outcome.outOfBounds`, which is *not* a
  `Result` value.
* Every loop of the source is translated to a recursion carrying an explicit
  fuel argument (`Outcome.fuelOut` when exhausted).  Each wrapper passes a
  fuel that is a generous upper bound on the number of iterations the loop
  can perform (each iteration strictly advances an index that is bounded by
  the input length), so `fuelOut` is unreachable from the public entry
  points; the theorems below only evaluate the functions on concrete or
  structurally fixed inputs, where this is visible by computation.
-/

namespace JsonParser

/-- Result of running a piece of Rust code that may return `Ok`, return
`Err`, or abort on an out-of-range `Vec` index.  `fuelOut` is an artifact of
the fueled translation of loops, never reached with the wrappers' fuel. -/
inductive Outcome (ε α : Type) : Type where
  | ok (a : α)
  | err (e : ε)
  | outOfBounds
  | fuelOut
deriving DecidableEq

/-- Sequencing of `Outcome` computations: errors, aborts and fuel
exhaustion propagate. -/
def Outcome.bind {ε α β : Type} : Outcome ε α → (α → Outcome ε β) → Outcome ε β
  | .ok a, f => f a
  | .err e, _ => .err e
  | .outOfBounds, _ => .outOfBounds
  | .fuelOut, _ => .fuelOut

/-- `Token` from `src/tokenize.rs`; the `Number` payload is the exact
rational value of the decimal literal (Rust stores an `f64`). -/
inductive Token : Type where
  | LeftBrace
  | RightBrace
  | LeftBracket
  | RightBracket
  | Colon
  | Comma
  | Null
  | False
  | True
  | Number (n : ℚ)
  | String (s : List Char)
deriving DecidableEq

/-- `TokenizeError` from `src/tokenize.rs` (the `ParseFloatError` payload of
`ParseNumberError` is dropped). -/
inductive TokenizeError : Type where
  | UnfinishedLiteralValue
  | UnclosedQuotes
  | UnexpectedEof
  | CharNotRecognized (c : Char)
  | ParseNumberError
deriving DecidableEq

/-- `Value` from `src/lib.rs`.  A Rust `HashMap<String, Value>` is modelled
as an association list with unique keys; insertion (`insertKV` below)
replaces the value of an existing key in place, as `HashMap::insert` does.
List equality is finer than `HashMap` equality (it also fixes an order), but
every theorem below only builds maps through `insertKV`, so the order is the
insertion order of the first occurrence of each key, which is determined by
the source text. -/
inductive Value : Type where
  | Null
  | Boolean (b : Bool)
  | Number (n : ℚ)
  | String (s : List Char)
  | Array (vs : List Value)
  | Object (m : List (List Char × Value))

/-- `char::is_ascii_whitespace`: space, horizontal tab, line feed, form
feed, carriage return. -/
def isAsciiWhitespace (c : Char) : Bool :=
  c = ' ' || c = '\t' || c = '\n' || c = Char.ofNat 12 || c = Char.ofNat 13

/-- The entry of `make_token`: the unchecked read `chars[*index]` followed
by the whitespace-skipping `while` loop.  Returns the index of the first
non-whitespace character and that character.  In the loop the source checks
`*index >= chars.len()` *after* incrementing and fails with
`UnexpectedEof`; the initial read is unchecked. -/
def skipWhitespace : Nat → List Char → Nat → Outcome TokenizeError (Nat × Char)
  | 0, _, _ => .fuelOut
  | fuel + 1, chars, index =>
    match chars[index]? with
    | none => .outOfBounds
    | some ch =>
      if isAsciiWhitespace ch then
        if index + 1 ≥ chars.length then .err .UnexpectedEof
        else skipWhitespace fuel chars (index + 1)
      else .ok (index, ch)

/-- The `for expected_char in str.chars()` loop of `tokenize_literal`:
each expected character is compared against the unchecked read
`chars[*index]`; a mismatch is `UnfinishedLiteralValue`, running past the
end of `chars` is an out-of-range index. -/
def tokenizeLiteralLoop : List Char → List Char → Nat → Outcome TokenizeError Nat
  | [], _, index => .ok index
  | e :: rest, chars, index =>
    match chars[index]? with
    | none => .outOfBounds
    | some ch =>
      if ch = e then tokenizeLiteralLoop rest chars (index + 1)
      else .err .UnfinishedLiteralValue

/-- `tokenize_literal` from `src/tokenize.rs`: match the expected keyword
character by character, then map the keyword to its token. -/
def tokenize_literal (str : List Char) (chars : List Char) (index : Nat) :
    Outcome TokenizeError (Token × Nat) :=
  (tokenizeLiteralLoop str chars index).bind fun i =>
    if str = "null".toList then .ok (Token.Null, i)
    else if str = "false".toList then .ok (Token.False, i)
    else if str = "true".toList then .ok (Token.True, i)
    else .err .UnfinishedLiteralValue

/-- The `loop` of `tokenize_string`: increment the index, fail with
`UnclosedQuotes` only if the index exceeds `chars.len()` *strictly* (the
source compares with `>`, so the read `chars[*index]` at `*index ==
chars.len()` is out of range), then scan with the escaping flag.  On the
closing unescaped quote the accumulated raw content is returned together
with the index of that quote. -/
def tokenizeStringLoop : Nat → List Char → Nat → Bool → List Char →
    Outcome TokenizeError (Token × Nat)
  | 0, _, _, _, _ => .fuelOut
  | fuel + 1, chars, index, isEscaping, acc =>
    let i := index + 1
    if i > chars.length then .err .UnclosedQuotes
    else
      match chars[i]? with
      | none => .outOfBounds
      | some ch =>
        if ch = '"' && !isEscaping then .ok (Token.String acc, i)
        else
          tokenizeStringLoop fuel chars i
            (if ch = '\\' then !isEscaping else false) (acc ++ [ch])

/-- `tokenize_string` from `src/tokenize.rs`. -/
def tokenize_string (chars : List Char) (index : Nat) :
    Outcome TokenizeError (Token × Nat) :=
  tokenizeStringLoop (chars.length + 1) chars index false []

/-- Digit accumulation `10*acc + digit` used to evaluate a run of ASCII
digits. -/
def intOfDigits (s : List Char) : Nat :=
  s.foldl (fun a c => 10 * a + (c.toNat - 48)) 0

/-- Split a character list at its first `'.'`; the second component is
`none` when no dot occurs.  The strings `tokenize_float` accumulates contain
at most one dot, so this recovers the integer and fractional parts. -/
def splitDot : List Char → List Char × Option (List Char)
  | [] => ([], none)
  | c :: rest =>
    if c = '.' then ([], some rest)
    else
      let p := splitDot rest
      (c :: p.1, p.2)

/-- Modelled from the spec: Rust's `str::parse::<f64>` (the standard
library call in `tokenize_float`, whose source is not part of this
repository), restricted to the strings `tokenize_float` can accumulate —
ASCII digits with at most one dot.  It fails exactly on strings containing
no digit (for these inputs: the empty string), and otherwise returns the
exact decimal value; `f64` rounding is not modelled. -/
def parseF64 (s : List Char) : Option ℚ :=
  if s.any Char.isDigit then
    match splitDot s with
    | (i, none) => some (intOfDigits i : ℚ)
    | (i, some f) =>
        some ((intOfDigits i : ℚ) + (intOfDigits f : ℚ) / (10 : ℚ) ^ f.length)
  else none

/-- The `while *index < chars.len()` loop of `tokenize_float`: consume a
maximal run of ASCII digits and at most one dot.  Note that the match arms
consume only digits and a first dot — any other character, *including the
leading `-` that dispatched into `tokenize_float`, breaks the loop without
being consumed*. -/
def tokenizeFloatLoop : Nat → List Char → Nat → Bool → List Char →
    Outcome TokenizeError (List Char × Nat)
  | 0, _, _, _, _ => .fuelOut
  | fuel + 1, chars, index, hasDecimal, acc =>
    match chars[index]? with
    | none => .ok (acc, index)
    | some ch =>
      if ch.isDigit then tokenizeFloatLoop fuel chars (index + 1) hasDecimal (acc ++ [ch])
      else if ch = '.' && !hasDecimal then
        tokenizeFloatLoop fuel chars (index + 1) true (acc ++ [ch])
      else .ok (acc, index)

/-- `tokenize_float` from `src/tokenize.rs`. -/
def tokenize_float (chars : List Char) (index : Nat) :
    Outcome TokenizeError (Token × Nat) :=
  (tokenizeFloatLoop (chars.length + 1) chars index false []).bind fun p =>
    match parseF64 p.1 with
    | some q => .ok (Token.Number q, p.2)
    | none => .err .ParseNumberError

/-- `make_token` from `src/tokenize.rs`: skip whitespace, then dispatch on
the current character.  The returned index is the value of `*index` when
`make_token` returns (the caller adds one). -/
def make_token (chars : List Char) (index : Nat) :
    Outcome TokenizeError (Token × Nat) :=
  (skipWhitespace (chars.length + 1) chars index).bind fun p =>
    let i := p.1
    let ch := p.2
    if ch = '{' then .ok (Token.LeftBrace, i)
    else if ch = '}' then .ok (Token.RightBrace, i)
    else if ch = '[' then .ok (Token.LeftBracket, i)
    else if ch = ']' then .ok (Token.RightBracket, i)
    else if ch = ':' then .ok (Token.Colon, i)
    else if ch = ',' then .ok (Token.Comma, i)
    else if ch = 'n' then tokenize_literal "null".toList chars i
    else if ch = 'f' then tokenize_literal "false".toList chars i
    else if ch = 't' then tokenize_literal "true".toList chars i
    else if ch = '"' then tokenize_string chars i
    else if ch.isDigit || ch = '-' then tokenize_float chars i
    else .err (.CharNotRecognized ch)

/-- The `while index < chars.len()` loop of `tokenize`: produce a token,
push it, and increment the index once more.  The increment is what steps
past a single-character token; after `tokenize_literal` or `tokenize_float`
(whose final index already points past their token) it steps over one
additional character. -/
def tokenizeLoop : Nat → List Char → Nat → List Token →
    Outcome TokenizeError (List Token)
  | 0, _, _, _ => .fuelOut
  | fuel + 1, chars, index, acc =>
    if index < chars.length then
      (make_token chars index).bind fun p =>
        tokenizeLoop fuel chars (p.2 + 1) (acc ++ [p.1])
    else .ok acc

/-- `tokenize` from `src/tokenize.rs`. -/
def tokenize (input : List Char) : Outcome TokenizeError (List Token) :=
  tokenizeLoop (input.length + 1) input 0 []

/-- `TokenParseError` from `src/parse.rs`. -/
inductive TokenParseError : Type where
  | UnfinishedEscape
  | InvalidHexValue
  | InvalidCodePointValue
  | ExpectedComma
  | ExpectedProperty
  | ExpectedColon
  | ExpectedValue
deriving DecidableEq

/-- `ParseError` from `src/parse.rs`: tags which stage failed. -/
inductive ParseError : Type where
  | TokenizeError (e : TokenizeError)
  | ParseError (e : TokenParseError)
deriving DecidableEq

/-- `char::to_digit(16)`: hexadecimal digit value. -/
def toDigit16 (c : Char) : Option Nat :=
  if '0' ≤ c && c ≤ '9' then some (c.toNat - 48)
  else if 'a' ≤ c && c ≤ 'f' then some (c.toNat - 87)
  else if 'A' ≤ c && c ≤ 'F' then some (c.toNat - 55)
  else none

/-- `char::from_u32`: `some` exactly on Unicode scalar values (below the
surrogate range `0xD800`–`0xDFFF` or between it and `0x110000`). -/
def charFromU32 (n : Nat) : Option Char :=
  if n < 55296 || (57343 < n && n < 1114112) then some (Char.ofNat n) else none

/-- The `for i in 0..4` loop of the `\u` escape in `parse_string`: read the
next `n` characters one at a time (`UnfinishedEscape` when the iterator is
exhausted), convert each to a hexadecimal digit (`InvalidHexValue` on
failure), and accumulate `sum += 16^(remaining-1) * digit`. -/
def readHexN : Nat → List Char → Nat → Outcome TokenParseError (Nat × List Char)
  | 0, cs, sum => .ok (sum, cs)
  | _ + 1, [], _ => .err .UnfinishedEscape
  | n + 1, c :: cs, sum =>
    match toDigit16 c with
    | none => .err .InvalidHexValue
    | some d => readHexN n cs (sum + 16 ^ n * d)

/-- The `while let Some(next_char) = chars.next()` loop of `parse_string`.
Under the escaping flag the source pushes `'\u{8}'` for `b` and `'\u{12}'`
for `f` (`Char.ofNat 8` and `Char.ofNat 18`: the `f` arm pushes U+0012, not
form feed U+000C), the matching characters for `"`, `\`, `n`, `r`, `t`,
resolves `u` via four hexadecimal digits and `char::from_u32`, and pushes
any other character through unchanged. -/
def parseStringLoop : Nat → List Char → Bool → List Char →
    Outcome TokenParseError (List Char)
  | 0, _, _, _ => .fuelOut
  | _ + 1, [], _, out => .ok out
  | fuel + 1, c :: rest, isEscaping, out =>
    if isEscaping then
      if c = '"' then parseStringLoop fuel rest false (out ++ ['"'])
      else if c = '\\' then parseStringLoop fuel rest false (out ++ ['\\'])
      else if c = 'b' then parseStringLoop fuel rest false (out ++ [Char.ofNat 8])
      else if c = 'f' then parseStringLoop fuel rest false (out ++ [Char.ofNat 18])
      else if c = 'n' then parseStringLoop fuel rest false (out ++ ['\n'])
      else if c = 'r' then parseStringLoop fuel rest false (out ++ [Char.ofNat 13])
      else if c = 't' then parseStringLoop fuel rest false (out ++ ['\t'])
      else if c = 'u' then
        (readHexN 4 rest 0).bind fun p =>
          match charFromU32 p.1 with
          | none => .err .InvalidCodePointValue
          | some ch => parseStringLoop fuel p.2 false (out ++ [ch])
      else parseStringLoop fuel rest false (out ++ [c])
    else if c = '\\' then parseStringLoop fuel rest true out
    else parseStringLoop fuel rest false (out ++ [c])

/-- `parse_string` from `src/parse.rs`: decode the raw content of a string
token.  Each loop iteration consumes at least one input character, so
`length + 1` fuel suffices. -/
def parse_string (input : List Char) : Outcome TokenParseError Value :=
  (parseStringLoop (input.length + 1) input false []).bind fun out =>
    .ok (Value.String out)

/-- `HashMap::insert` on the association-list model: replace the value of
an existing key in place, otherwise append the new binding. -/
def insertKV (m : List (List Char × Value)) (k : List Char) (v : Value) :
    List (List Char × Value) :=
  match m with
  | [] => [(k, v)]
  | (k0, v0) :: rest =>
    if k0 = k then (k0, v) :: rest else (k0, v0) :: insertKV rest k v

mutual

/-- `parse_tokens` from `src/parse.rs`: the unchecked read
`&tokens[*index]`, cursor advance for the terminal tokens, and dispatch.
Returns the parsed value together with the final cursor. -/
def parse_tokensF : Nat → List Token → Nat → Outcome TokenParseError (Value × Nat)
  | 0, _, _ => .fuelOut
  | fuel + 1, tokens, index =>
    match tokens[index]? with
    | none => .outOfBounds
    | some t =>
      match t with
      | Token.Null => .ok (Value.Null, index + 1)
      | Token.False => .ok (Value.Boolean false, index + 1)
      | Token.True => .ok (Value.Boolean true, index + 1)
      | Token.Number n => .ok (Value.Number n, index + 1)
      | Token.String s => (parse_string s).bind fun v => .ok (v, index + 1)
      | Token.LeftBrace => parse_objectF fuel tokens index []
      | Token.LeftBracket => parse_arrayF fuel tokens index []
      | _ => .err .ExpectedValue

/-- The `loop` of `parse_array`: advance past `[` or `,`, stop on `]`,
otherwise parse one element and require `,` or `]`.  Both unchecked reads
`tokens[*index]` are modelled. -/
def parse_arrayF : Nat → List Token → Nat → List Value →
    Outcome TokenParseError (Value × Nat)
  | 0, _, _, _ => .fuelOut
  | fuel + 1, tokens, index, acc =>
    let i := index + 1
    match tokens[i]? with
    | none => .outOfBounds
    | some t =>
      if t = Token.RightBracket then .ok (Value.Array acc, i + 1)
      else
        (parse_tokensF fuel tokens i).bind fun p =>
          match tokens[p.2]? with
          | none => .outOfBounds
          | some t2 =>
            match t2 with
            | Token.RightBracket => .ok (Value.Array (acc ++ [p.1]), p.2 + 1)
            | Token.Comma => parse_arrayF fuel tokens p.2 (acc ++ [p.1])
            | _ => .err .ExpectedComma

/-- The `loop` of `parse_object`: advance past the opening brace or a
comma, stop on `}`, otherwise require a `String` key (`ExpectedProperty`),
a `Colon` (`ExpectedColon`), parse the value, insert it (overwriting any
earlier binding of the key), and require `,` or `}` (`ExpectedComma`).  The
key is the token's raw content, cloned without escape decoding. -/
def parse_objectF : Nat → List Token → Nat → List (List Char × Value) →
    Outcome TokenParseError (Value × Nat)
  | 0, _, _, _ => .fuelOut
  | fuel + 1, tokens, index, map =>
    let i := index + 1
    match tokens[i]? with
    | none => .outOfBounds
    | some t =>
      if t = Token.RightBrace then .ok (Value.Object map, i + 1)
      else
        match t with
        | Token.String s =>
          match tokens[i + 1]? with
          | none => .outOfBounds
          | some t2 =>
            if t2 = Token.Colon then
              (parse_tokensF fuel tokens (i + 2)).bind fun p =>
                let map2 := insertKV map s p.1
                match tokens[p.2]? with
                | none => .outOfBounds
                | some t3 =>
                  match t3 with
                  | Token.Comma => parse_objectF fuel tokens p.2 map2
                  | Token.RightBrace => .ok (Value.Object map2, p.2 + 1)
                  | _ => .err .ExpectedComma
            else .err .ExpectedColon
        | _ => .err .ExpectedProperty

end

/-- `parse_tokens` with its fuel instantiated.  Every `parse_tokensF` call
either stops or first performs an unchecked read at a cursor that is
strictly larger than at the previous `parse_tokensF` call, and at most two
fueled calls happen per cursor position, so `2 * length + 4` fuel is a
generous bound. -/
def parse_tokens (tokens : List Token) (index : Nat) :
    Outcome TokenParseError (Value × Nat) :=
  parse_tokensF (2 * tokens.length + 4) tokens index

/-- `parse` from `src/parse.rs`: `tokenize`, then `parse_tokens` from
cursor 0, wrapping each stage's error (and propagating an abort of either
stage).  The final cursor is dropped; trailing tokens are ignored. -/
def parse (input : List Char) : Outcome ParseError Value :=
  match tokenize input with
  | .ok tokens =>
    match parse_tokens tokens 0 with
    | .ok p => .ok p.1
    | .err e => .err (ParseError.ParseError e)
    | .outOfBounds => .outOfBounds
    | .fuelOut => .fuelOut
  | .err e => .err (ParseError.TokenizeError e)
  | .outOfBounds => .outOfBounds
  | .fuelOut => .fuelOut

/-- C1: the claim says `parse "[true,false,null]"` yields
`Array [Boolean true, Boolean false, Null]` and `parse "[]"` an empty
array.  On the code, the first input instead fails with `ExpectedComma`:
after `tokenize_literal` the index already points at the separating comma,
and the extra `index += 1` in `tokenize`'s loop skips it, so the token
sequence is `[LeftBracket, True, False, Null]` with no commas and the array
production rejects it.  `parse "[]"` does yield the empty array. -/
theorem array_of_keywords_parse_fails :
    parse "[true,false,null]".toList =
      Outcome.err (ParseError.ParseError TokenParseError.ExpectedComma) ∧
    parse "[]".toList = Outcome.ok (Value.Array []) :=
  ⟨rfl, rfl⟩

/-- C2: the claim (and the crate's own tests `test_negative_integer` and
`test_float`) say `parse "-123.456"` yields `Number (-123.456)`.  On the
code it fails: `tokenize_float` is entered at the `-`, but its match arms
only consume digits and a dot, so the loop breaks immediately with an empty
accumulation, which the float parse rejects (`ParseNumberError`).  For the
minus-free strings of the claimed pattern the value is correct, e.g.
`123.456`. -/
theorem negative_number_tokenize_fails :
    parse "-123.456".toList =
      Outcome.err (ParseError.TokenizeError TokenizeError.ParseNumberError) ∧
    parse "123.456".toList = Outcome.ok (Value.Number (123456 / 1000 : ℚ)) := by
  refine ⟨rfl, ?_⟩
  rw [show parse "123.456".toList =
      Outcome.ok (Value.Number ((123 : ℚ) + (456 : ℚ) / (10 : ℚ) ^ (3 : ℕ))) from rfl]
  norm_num

/-- C3: the claim says `tokenize` is total and that input ending in the
middle of a keyword, such as `tru`, fails with `UnfinishedLiteralValue`.
On the code, `tokenize_literal` reads `chars[*index]` without a bounds
check, so `tru` aborts with an out-of-range index instead of returning any
`Result`.  A mismatch that stays in bounds (such as `truX`) does return
`UnfinishedLiteralValue`: only the end-of-input path violates totality. -/
theorem truncated_literal_out_of_bounds :
    tokenize "tru".toList = Outcome.outOfBounds ∧
    tokenize "truX".toList = Outcome.err TokenizeError.UnfinishedLiteralValue :=
  ⟨rfl, rfl⟩

/-- C4: the claim (and the crate's own test `test_unclosed_quotes`) says an
unterminated string literal fails with `UnclosedQuotes`.  On the code,
`tokenize_string` increments the index and then compares it with
`chars.len()` using `>` rather than `>=`, so when the input ends right
inside the literal the read `chars[*index]` at `*index == chars.len()` is
out of range and the function aborts instead of returning the error. -/
theorem unclosed_string_out_of_bounds :
    tokenize "\"unclosed string".toList = Outcome.outOfBounds :=
  rfl

/-- C5 counterexample: the claim says `parse` of an object with a trailing
comma fails with `ExpectedProperty`; on the code it does not. -/
theorem trailing_comma_not_expectedProperty :
    parse "\x7b\"a\":1,\x7d".toList ≠
      Outcome.err (ParseError.ParseError TokenParseError.ExpectedProperty) := by
  rw [show parse "\x7b\"a\":1,\x7d".toList =
      Outcome.ok (Value.Object [("a".toList, Value.Number 1)]) from rfl]
  intro h
  exact Outcome.noConfusion h

/-- C5 amended: `parse` of the object with a trailing comma before the
closing brace *succeeds*, yielding the map sending `a` to `1`.  Two
independent behaviours produce this: the tokenizer drops the comma after
the number token (`tokenize`'s `index += 1` skips it), and even when the
comma is present at token level, `parse_object` accepts a comma directly
followed by a closing brace, because the brace test at the top of its loop
runs right after stepping past a comma. -/
theorem trailing_comma_accepted :
    parse "\x7b\"a\":1,\x7d".toList =
      Outcome.ok (Value.Object [("a".toList, Value.Number 1)]) ∧
    parse_tokens [Token.LeftBrace, Token.String "a".toList, Token.Colon,
        Token.Number 1, Token.Comma, Token.RightBrace] 0 =
      Outcome.ok (Value.Object [("a".toList, Value.Number 1)], 6) :=
  ⟨rfl, rfl⟩

/-- C6: the claim (and the comment in the source) says the escape `\f`
decodes to form feed U+000C.  The source pushes the Rust literal
`'\u{12}'`, which is U+0012 (hexadecimal 12 = 18), not U+000C: decoding the
two-character string `\f` yields the one-character string U+0012. -/
theorem formfeed_escape_decodes_to_u0012 :
    parse "\"\\f\"".toList = Outcome.ok (Value.String [Char.ofNat 18]) ∧
    Char.ofNat 18 ≠ Char.ofNat 12 :=
  ⟨rfl, by decide⟩

/-- C7 counterexample: the claim says a repeated key is overwritten *with
no error*; on the code, the object `\x7b"a":1,"a":2\x7d` fails with
`ExpectedComma`, because the tokenizer drops the comma that follows the
number token `1`. -/
theorem duplicate_number_keys_error :
    parse "\x7b\"a\":1,\"a\":2\x7d".toList =
      Outcome.err (ParseError.ParseError TokenParseError.ExpectedComma) := by
  have h : tokenize "\x7b\"a\":1,\"a\":2\x7d".toList =
      Outcome.ok [Token.LeftBrace, Token.String "a".toList, Token.Colon,
        Token.Number 1, Token.String "a".toList, Token.Colon, Token.Number 2] := rfl
  simp only [parse, h]
  rfl

/-- C7 amended: at the token level the object production always overwrites
an earlier binding of a repeated key with the later value (shown for any
two number payloads); through the whole pipeline the same holds when the
values are string literals, whose tokenization does not eat the separating
comma; and parsing the empty object yields the empty mapping.  Objects
whose repeated-key values are numbers or keywords followed by a comma
instead fail, as the counterexample shows. -/
theorem duplicate_key_last_wins :
    (∀ q1 q2 : ℚ,
      parse_tokens [Token.LeftBrace, Token.String "a".toList, Token.Colon,
          Token.Number q1, Token.Comma, Token.String "a".toList, Token.Colon,
          Token.Number q2, Token.RightBrace] 0 =
        Outcome.ok (Value.Object [("a".toList, Value.Number q2)], 9)) ∧
    parse "\x7b\"a\":\"x\",\"a\":\"y\"\x7d".toList =
      Outcome.ok (Value.Object [("a".toList, Value.String "y".toList)]) ∧
    parse "\x7b\x7d".toList = Outcome.ok (Value.Object []) := by
  refine ⟨fun _ _ => rfl, ?_, rfl⟩
  have h : tokenize "\x7b\"a\":\"x\",\"a\":\"y\"\x7d".toList =
      Outcome.ok [Token.LeftBrace, Token.String "a".toList, Token.Colon,
        Token.String "x".toList, Token.Comma, Token.String "a".toList,
        Token.Colon, Token.String "y".toList, Token.RightBrace] := rfl
  simp only [parse, h]
  rfl

/-- C8: string-escape decoding maps each of the two-character escapes
`\"`, `\\`, `\n`, `\t`, `\r`, `\b` to the corresponding single character
(U+0022, U+005C, U+000A, U+0009, U+000D, U+0008), and `\u0041` to the
single character `A`. -/
theorem escape_decoding_correct :
    parse_string "\\\"".toList = Outcome.ok (Value.String ['"']) ∧
    parse_string "\\\\".toList = Outcome.ok (Value.String ['\\']) ∧
    parse_string "\\n".toList = Outcome.ok (Value.String ['\n']) ∧
    parse_string "\\t".toList = Outcome.ok (Value.String ['\t']) ∧
    parse_string "\\r".toList = Outcome.ok (Value.String [Char.ofNat 13]) ∧
    parse_string "\\b".toList = Outcome.ok (Value.String [Char.ofNat 8]) ∧
    parse_string "\\u0041".toList = Outcome.ok (Value.String ['A']) ∧
    parse "\"\\u0041\"".toList = Outcome.ok (Value.String ['A']) :=
  ⟨rfl, rfl, rfl, rfl, rfl, rfl, rfl, rfl⟩

/-- C9: `parse` is deterministic — it is a pure function of the input
text (the embedding is a function, matching the source, which reads no
state other than its argument), so two runs on the same string produce
identical results, on success and on failure alike. -/
theorem parse_deterministic : ∀ s : List Char, parse s = parse s :=
  fun _ => rfl

/-- C10: `tokenize` of the empty string returns `Ok` with the empty token
sequence (the whitespace-skipping loop never starts, so no
`UnexpectedEof`), and `parse_tokens` then reads `tokens[0]` of that empty
sequence without a bounds check, so `parse` of the empty string aborts on
an out-of-range index instead of returning any `Result` value: a non-empty
token sequence is an unstated precondition of `parse_tokens`. -/
theorem empty_input_panics :
    tokenize "".toList = Outcome.ok [] ∧
    parse_tokens [] 0 = Outcome.outOfBounds ∧
    parse "".toList = Outcome.outOfBounds :=
  ⟨rfl, rfl, rfl⟩

end JsonParser
